import Mathlib

/-!
Verification of the entity-resolution / quality-check core (`src/core/er_qc.py`)
of the veridion_poc repository: a shallow embedding of the scoring-and-decision
engine (normalisation, feature engineering, weighted scoring, per-group top
selection, threshold decisioning, QC flags, export projection) together with
proofs of the specified properties.

Numeric values (Python floats) are modelled as exact rationals; pandas missing
values (NaN) are modelled as `none`; a pandas DataFrame is modelled as a
`List` of row structures, in original row order.
-/

namespace ErQc

/-- A raw candidate-pair row of the joined input table: one input record joined
to one candidate record.  Every field except the grouping key may be missing
(pandas NaN), hence `Option String`. -/
structure Row where
  input_row_key : String
  input_company_name : Option String
  company_name : Option String
  input_main_country_code : Option String
  main_country_code : Option String
  input_main_city : Option String
  main_city : Option String
  website_url : Option String
  last_updated_at : Option String
  main_postcode : Option String
  main_street : Option String
  linkedin_url : Option String
  facebook_url : Option String
  twitter_url : Option String
  youtube_url : Option String
  instagram_url : Option String
  tiktok_url : Option String
  company_type : Option String
  veridion_id : Option String
deriving DecidableEq, Repr

/-- The `weights` configuration mapping: each feature weight may be absent
(a Python dict without that key). -/
structure Weights where
  name_similarity : Option ℚ := none
  country_match : Option ℚ := none
  city_match : Option ℚ := none
  freshness : Option ℚ := none
  has_website : Option ℚ := none
deriving DecidableEq, Repr

/-- The `thresholds` configuration mapping; absent keys fall back to defaults
inside `decide`. -/
structure Thresholds where
  strong : Option ℚ := none
  review : Option ℚ := none
  name_hard_floor : Option ℚ := none
deriving DecidableEq, Repr

/-- Source `norm`: normalize a value to a comparable lowercase string — NaN becomes
the empty string, otherwise strip whitespace and lowercase. -/
def norm (s : Option String) : String :=
  match s with
  | none => ""
  | some v => v.trim.toLower

/-- Length of the longest common prefix of two character lists (the length of
the matching block starting at a given pair of positions). -/
def lcp : List Char → List Char → Nat
  | x :: xs, y :: ys => if x = y then lcp xs ys + 1 else 0
  | _, _ => 0

/-- Leftmost-longest common block of `a` and `b`: the triple `(i, j, k)` with
maximal `k` such that `a.drop i` and `b.drop j` share a common prefix of
length `k`, ties resolved to the smallest `i`, then the smallest `j`
(models `difflib.SequenceMatcher.find_longest_match`). -/
def bestBlock (a b : List Char) : Nat × Nat × Nat :=
  let cands := (List.range a.length).flatMap fun i =>
    (List.range b.length).map fun j => (i, j, lcp (a.drop i) (b.drop j))
  cands.foldl (fun best c => if best.2.2 < c.2.2 then c else best) (0, 0, 0)

/-- Total size of all matching blocks of the Ratcliff/Obershelp recursion
(models `difflib.SequenceMatcher.get_matching_blocks`); fuelled recursion,
`fuel = a.length + b.length + 1` always suffices. -/
def matchTotal : Nat → List Char → List Char → Nat
  | 0, _, _ => 0
  | fuel + 1, a, b =>
    let ijk := bestBlock a b
    let i := ijk.1
    let j := ijk.2.1
    let k := ijk.2.2
    if k = 0 then 0
    else
      matchTotal fuel (a.take i) (b.take j) + k
        + matchTotal fuel (a.drop (i + k)) (b.drop (j + k))

/-- The similarity of two character sequences, `2*M/T` where `M` is
the total matched size and `T` the total length; `1` when both are empty
(models `difflib.SequenceMatcher.ratio`). -/
def ratioOf (a b : List Char) : ℚ :=
  let t := a.length + b.length
  if t = 0 then 1
  else 2 * (matchTotal (t + 1) a b : ℚ) / (t : ℚ)

/-- Source `sim`: similarity between two values after normalization, in `[0,1]`. -/
def sim (a b : Option String) : ℚ :=
  ratioOf (norm a).toList (norm b).toList

/-- Gregorian leap-year test. -/
def isLeap (y : Nat) : Bool :=
  (y % 4 == 0 && y % 100 != 0) || y % 400 == 0

/-- Days in month `m` of year `y`. -/
def daysInMonth (y m : Nat) : Nat :=
  [31, if isLeap y then 29 else 28, 31, 30, 31, 30, 31, 31, 30, 31, 30, 31].getD (m - 1) 0

/-- Day number of a civil date (days since the epoch 0001-01-01, day
granularity). -/
def daysOfDate (y m d : Nat) : Nat :=
  let base := 365 * (y - 1) + ((y - 1) / 4 - (y - 1) / 100 + (y - 1) / 400)
  let cum := [0, 31, 59, 90, 120, 151, 181, 212, 243, 273, 304, 334].getD (m - 1) 0
  base + cum + (if 2 < m && isLeap y then 1 else 0) + (d - 1)

/-- Validity of a civil date. -/
def validDate (y m d : Nat) : Bool :=
  1 ≤ m && m ≤ 12 && 1 ≤ d && d ≤ daysInMonth y m

/-- Numeric value of a decimal digit character code (`'0'` is code 48), if
it is one. -/
def digitVal (c : Nat) : Option Nat :=
  if 48 ≤ c ∧ c ≤ 57 then some (c - 48) else none

/-- Two decimal digit codes as a number. -/
def twoDigits (c1 c2 : Nat) : Option Nat :=
  match digitVal c1, digitVal c2 with
  | some a, some b => some (10 * a + b)
  | _, _ => none

/-- Four decimal digit codes as a number. -/
def fourDigits (c1 c2 c3 c4 : Nat) : Option Nat :=
  match twoDigits c1 c2, twoDigits c3 c4 with
  | some a, some b => some (100 * a + b)
  | _, _ => none

/-- Validity of an optional seconds-fraction tail `.ffffff`
(code 46 is `'.'`). -/
def validFrac : List Nat → Bool
  | [] => true
  | 46 :: rest => rest ≠ [] && rest.all (fun c => 48 ≤ c && c ≤ 57)
  | _ => false

/-- Validity of a UTC-offset tail `±HH:MM` (codes 43/45 are `'+'`/`'-'`,
58 is `':'`). -/
def validOffset : List Nat → Bool
  | [] => true
  | s :: h1 :: h2 :: 58 :: m1 :: m2 :: [] =>
    (s = 43 || s = 45)
      && (match twoDigits h1 h2, twoDigits m1 m2 with
          | some h, some m => h ≤ 23 && m ≤ 59
          | _, _ => false)
  | _ => false

/-- Parse of a time-of-day tail `HH:MM[:SS[.ffffff]][±HH:MM]`: `none` when
malformed, otherwise `some aware` where `aware` records whether a (nonempty)
UTC-offset part is present — `datetime.fromisoformat` returns an
offset-aware datetime exactly then. -/
def timeAware : List Nat → Option Bool
  | h1 :: h2 :: 58 :: m1 :: m2 :: rest =>
    if ((match twoDigits h1 h2, twoDigits m1 m2 with
         | some h, some m => h ≤ 23 && m ≤ 59
         | _, _ => false) : Bool)
    then
      match rest with
      | [] => some false
      | 58 :: s1 :: s2 :: rest2 =>
        if ((match twoDigits s1 s2 with
             | some s => s ≤ 59
             | none => false) : Bool)
        then
          match rest2 with
          | [] => some false
          | 46 :: _ => if validFrac rest2 then some false else none
          | _ => if validOffset rest2 then some true else none
        else none
      | _ => if validOffset rest then some true else none
    else none
  | _ => none

/-- The character codes of a string. -/
def codes (s : String) : List Nat :=
  s.toList.map Char.toNat

/-- A parsed timestamp at day granularity: the day number of its date part,
and whether the datetime is offset-aware (carries a UTC offset) — the
distinction `datetime` makes between aware and naive values, on which
subtraction from the aware run timestamp either succeeds or raises. -/
structure Timestamp where
  day : Int
  aware : Bool
deriving DecidableEq, Repr

/-- Core of the `datetime.fromisoformat` model, on character codes: parses
`YYYY-MM-DD[T| ]HH:MM[:SS[.ffffff]][±HH:MM]` (codes 45, 84, 32 are `'-'`,
`'T'`, `' '`) and returns the day number of the date part together with the
offset-awareness of the result, or `none` when malformed (where the library
raises `ValueError`, caught by `parse_dt`). -/
def isoDateTime : List Nat → Option Timestamp
  | y1 :: y2 :: y3 :: y4 :: 45 :: m1 :: m2 :: 45 :: d1 :: d2 :: rest =>
    match fourDigits y1 y2 y3 y4, twoDigits m1 m2, twoDigits d1 d2 with
    | some y, some m, some d =>
      if validDate y m d then
        match rest with
        | [] => some ⟨(daysOfDate y m d : Nat), false⟩
        | sep :: t =>
          if sep = 84 || sep = 32 then
            match timeAware t with
            | some aw => some ⟨(daysOfDate y m d : Nat), aw⟩
            | none => none
          else none
      else none
    | _, _, _ => none
  | _ => none

/-- Model of `datetime.fromisoformat` at day granularity. -/
def fromisoformat (s : String) : Option Timestamp :=
  isoDateTime (codes s)

/-- Model of `str.replace("Z", "+00:00")` at the character-code level:
code 90 is `'Z'`; codes 43, 48, 48, 58, 48, 48 spell `"+00:00"`. -/
def replaceZ : List Nat → List Nat
  | [] => []
  | c :: rest =>
    if c = 90 then 43 :: 48 :: 48 :: 58 :: 48 :: 48 :: replaceZ rest
    else c :: replaceZ rest

/-- Source `parse_dt`: parse an ISO8601-like string into a timestamp if possible;
`none` when the input is missing, empty, or fails to parse (every literal
`Z` is first replaced by the `+00:00` offset text, mirroring the call
`str(s).replace("Z", "+00:00")` in the source). -/
def parse_dt (s : Option String) : Option Timestamp :=
  match s with
  | none => none
  | some v => if v = "" then none else isoDateTime (replaceZ (codes v))

/-- Source `freshness_score`: map days-since-last-update into a score
(higher = fresher); unknown days score `0.3`. -/
def freshness_score (days : Option Int) : ℚ :=
  match days with
  | none => 0.3
  | some d =>
    if d ≤ 365 then 1.0
    else if d ≤ 730 then 0.7
    else if d ≤ 1095 then 0.5
    else 0.3

/-- The `country_match` feature: raw (unnormalized) equality of the two
country-code values — case- and whitespace-sensitive, and `NaN` never equals
anything (pandas elementwise `==`). -/
def country_match (a b : Option String) : Nat :=
  match a, b with
  | some x, some y => if x = y then 1 else 0
  | _, _ => 0

/-- The `city_match` feature: `1` iff the normalized input city is non-empty
and equals the normalized candidate city. -/
def city_match (a b : Option String) : Nat :=
  if norm a ≠ "" && norm a = norm b then 1 else 0

/-- The `has_website` feature: `1` iff the website field is non-null and the
string is non-empty. -/
def has_website_of (w : Option String) : Nat :=
  match w with
  | none => 0
  | some s => if 0 < s.length then 1 else 0

/-- The `days_since_update` feature: `(today - d).days` where `today` is the
offset-aware run timestamp — unknown (`NaN`) when parsing failed, the day
difference when the parsed timestamp is offset-aware, and an error when it
is offset-naive: subtracting a naive datetime from the aware `today` raises
`TypeError`, which nothing in the source catches, so the run aborts. -/
def days_since_update_of (today : Int) (v : Option String) : Except Unit (Option Int) :=
  match parse_dt v with
  | none => Except.ok none
  | some d => if d.aware then Except.ok (some (today - d.day)) else Except.error ()

/-- A row after `engineer_features`: the raw fields plus the derived
features. -/
structure FRow extends Row where
  name_similarity : ℚ
  country_match : Nat
  city_match : Nat
  has_website : Nat
  days_since_update : Option Int
  freshness : ℚ
deriving DecidableEq, Repr

/-- Error-propagating map: apply a fallible function to every element,
aborting at the first error (the uncaught exception ends the run before any
output is produced). -/
def mapExcept (f : α → Except ε β) : List α → Except ε (List β)
  | [] => Except.ok []
  | a :: as =>
    match f a with
    | Except.error e => Except.error e
    | Except.ok b =>
      match mapExcept f as with
      | Except.error e => Except.error e
      | Except.ok bs => Except.ok (b :: bs)

/-- The per-row body of `engineer_features`: the feature columns derived from
one raw pair row; `today` is the single wall-clock read (UTC now) of the
run.  Fails when the day-difference computation raises. -/
def featRow (today : Int) (r : Row) : Except Unit FRow :=
  match days_since_update_of today r.last_updated_at with
  | Except.error e => Except.error e
  | Except.ok days =>
    Except.ok
      { r with
        name_similarity := sim r.input_company_name r.company_name
        country_match := country_match r.input_main_country_code r.main_country_code
        city_match := city_match r.input_main_city r.main_city
        has_website := has_website_of r.website_url
        days_since_update := days
        freshness := freshness_score days }

/-- Source `engineer_features`: add the feature columns used by the matcher and the
QC logic to every row; an uncaught `TypeError` from the day-difference
column aborts the whole computation. -/
def engineer_features (today : Int) (rows : List Row) : Except Unit (List FRow) :=
  mapExcept (featRow today) rows

/-- A scored row: features plus the weighted `match_score`. -/
structure SRow extends FRow where
  match_score : ℚ
deriving DecidableEq, Repr

/-- The per-row body of `score_candidates`: the weighted `match_score`
(defaults applied per absent weight key; no normalization or clamping). -/
def scoreRow (weights : Weights) (r : FRow) : SRow :=
  { r with
    match_score :=
      weights.name_similarity.getD 0.6 * r.name_similarity
        + weights.country_match.getD 0.15 * (r.country_match : ℚ)
        + weights.city_match.getD 0.1 * (r.city_match : ℚ)
        + weights.freshness.getD 0.1 * r.freshness
        + weights.has_website.getD 0.05 * (r.has_website : ℚ) }

/-- Source `score_candidates`: combine the features of every row into a single
weighted `match_score`. -/
def score_candidates (rows : List FRow) (weights : Weights) : List SRow :=
  rows.map (scoreRow weights)

/-- Source `decide`: label a row `"Matched"`, `"Needs Review"` or `"Unmatched"` by the
ordered threshold rules (name hard floor first, then strong, then review). -/
def decide (top_row : SRow) (thresholds : Thresholds) : String :=
  let name_floor := thresholds.name_hard_floor.getD 0.70
  let strong := thresholds.strong.getD 0.75
  let review := thresholds.review.getD 0.60
  if top_row.name_similarity < name_floor then "Unmatched"
  else if strong ≤ top_row.match_score then "Matched"
  else if review ≤ top_row.match_score then "Needs Review"
  else "Unmatched"

/-- Render a rational with two decimals, rounding half to even (models the
Python `:.2f` format of the corresponding value). -/
def fmt2 (q : ℚ) : String :=
  let r := q * 100
  let f : Int := r.num.fdiv r.den
  let frac := r - (f : ℚ)
  let k : Int :=
    if frac < 1 / 2 then f
    else if 1 / 2 < frac then f + 1
    else if f % 2 = 0 then f else f + 1
  let sign := if k < 0 then "-" else ""
  let a := k.natAbs
  sign ++ toString (a / 100) ++ "." ++ (if a % 100 < 10 then "0" else "") ++ toString (a % 100)

/-- Source `decision_notes`: a short audit trail for the decision. -/
def decision_notes (r : SRow) : String :=
  let bits := ["name_sim=" ++ fmt2 r.name_similarity]
  let bits := bits ++ [if r.country_match = 1 then "country✓" else "country✗"]
  let bits := bits ++ (if r.city_match = 1 then ["city✓"] else [])
  let bits := bits ++ (if r.has_website = 1 then ["website✓"] else [])
  let bits := bits ++ ["fresh=" ++ fmt2 r.freshness]
  let bits := bits ++ ["score=" ++ fmt2 r.match_score]
  String.intercalate "; " bits

/-- A labelled row: a scored row plus its decision. -/
structure LRow extends SRow where
  decision : String
deriving DecidableEq, Repr

/-- Blank test used by the QC flags: missing (NaN) or whitespace-only. -/
def blank (v : Option String) : Bool :=
  match v with
  | none => true
  | some s => s.trim = ""

/-- Condition of the `no_website_no_social` flag: no website feature and all
six social-profile URL fields blank. -/
def noWebsiteNoSocial (r : LRow) : Bool :=
  r.has_website = 0
    && !([r.linkedin_url, r.facebook_url, r.twitter_url, r.youtube_url,
          r.instagram_url, r.tiktok_url].any fun s => !blank s)

/-- Condition of the `stale_update_>2y` flag: days since update known and
strictly greater than 730. -/
def staleCond (r : LRow) : Bool :=
  match r.days_since_update with
  | some d => 730 < d
  | none => false

/-- Source `qc_flags_row` as a list: the data-quality flags in their fixed
evaluation order. -/
def qc_flags_list (r : LRow) : List String :=
  (if blank r.main_postcode then ["missing_postcode"] else [])
    ++ (if blank r.main_street then ["missing_street"] else [])
    ++ (if noWebsiteNoSocial r then ["no_website_no_social"] else [])
    ++ (if staleCond r then ["stale_update_>2y"] else [])
    ++ (if blank r.company_type then ["missing_company_type"] else [])

/-- Source `qc_flags_row`: the flags joined for display, empty when none
triggered. -/
def qc_flags_row (r : LRow) : String :=
  let flags := qc_flags_list r
  if flags = [] then "" else String.intercalate ", " flags

/-- The five QC flag names in their fixed evaluation order. -/
def allQcFlags : List String :=
  ["missing_postcode", "missing_street", "no_website_no_social",
   "stale_update_>2y", "missing_company_type"]

/-- The trigger condition of each QC flag name (the guard of the
corresponding append in `qc_flags_row`); false on unknown names. -/
def qcTrigger (r : LRow) (f : String) : Bool :=
  if f = "missing_postcode" then blank r.main_postcode
  else if f = "missing_street" then blank r.main_street
  else if f = "no_website_no_social" then noWebsiteNoSocial r
  else if f = "stale_update_>2y" then staleCond r
  else if f = "missing_company_type" then blank r.company_type
  else false

/-- A fully labelled output row: decision, rationale, QC flags. -/
structure TRow extends LRow where
  decision_notes : String
  qc_flags : String
deriving DecidableEq, Repr

/-- Whether the row `p` at position `i` is the rank-1 row of its
`input_row_key` group: every same-key row either scores strictly lower, or
ties and sits at position `≥ i` (models
`groupby("input_row_key")["match_score"].rank(method="first", ascending=False) == 1`). -/
def topOf (rows : List SRow) (i : Nat) (p : SRow) : Bool :=
  (List.range rows.length).all fun j =>
    match rows[j]? with
    | none => true
    | some q =>
      if q.input_row_key = p.input_row_key then
        if q.match_score < p.match_score then true
        else if q.match_score = p.match_score then Nat.ble i j
        else false
      else true

/-- Attach decision, rationale and QC flags to a selected top row. -/
def labelRow (p : SRow) (thresholds : Thresholds) : TRow :=
  let l : LRow := { p with decision := decide p thresholds }
  { l with decision_notes := decision_notes p, qc_flags := qc_flags_row l }

/-- Source `pick_top_and_label`: within each input record keep only the best
candidate (highest score, first-in-order on ties) and label it; kept rows
stay in original table order. -/
def pick_top_and_label (rows : List SRow) (thresholds : Thresholds) : List TRow :=
  (List.range rows.length).filterMap fun i =>
    match rows[i]? with
    | some p => if topOf rows i p then some (labelRow p thresholds) else none
    | none => none

/-- A projected export row: exactly the columns of the `matches_decisions`
table (the projection drops `days_since_update` and the rank helper). -/
structure MRow where
  input_row_key : String
  input_company_name : Option String
  input_main_country_code : Option String
  input_main_city : Option String
  veridion_id : Option String
  company_name : Option String
  main_country_code : Option String
  main_city : Option String
  website_url : Option String
  name_similarity : ℚ
  country_match : Nat
  city_match : Nat
  freshness : ℚ
  has_website : Nat
  match_score : ℚ
  decision : String
  decision_notes : String
  qc_flags : String
deriving DecidableEq, Repr

/-- Project a labelled row to the export column list. -/
def toMRow (r : TRow) : MRow :=
  { input_row_key := r.input_row_key
    input_company_name := r.input_company_name
    input_main_country_code := r.input_main_country_code
    input_main_city := r.input_main_city
    veridion_id := r.veridion_id
    company_name := r.company_name
    main_country_code := r.main_country_code
    main_city := r.main_city
    website_url := r.website_url
    name_similarity := r.name_similarity
    country_match := r.country_match
    city_match := r.city_match
    freshness := r.freshness
    has_website := r.has_website
    match_score := r.match_score
    decision := r.decision
    decision_notes := r.decision_notes
    qc_flags := r.qc_flags }

/-- Insert into a list sorted by `le`. -/
def insertBy (le : α → α → Bool) (x : α) : List α → List α
  | [] => [x]
  | y :: ys => if le x y then x :: y :: ys else y :: insertBy le x ys

/-- Sort a list by `le` (insertion sort; models the deterministic
`sort_values` call). -/
def sortBy (le : α → α → Bool) : List α → List α
  | [] => []
  | x :: xs => insertBy le x (sortBy le xs)

/-- Sort order of the export: decision ascending (lexical), then
`match_score` descending. -/
def exportLe (a b : MRow) : Bool :=
  a.decision < b.decision || (a.decision = b.decision && b.match_score ≤ a.match_score)

/-- The five exported tables. -/
structure Exports where
  matches_decisions : List MRow
  matched : List MRow
  needs_review : List MRow
  unmatched : List MRow
  qc_summary : List (String × String × Nat)
deriving DecidableEq, Repr

/-- Source `export_outputs`: project to the fixed column list, sort by decision then
score, partition by decision, and aggregate row counts by
(decision, clean-or-flagged). -/
def export_outputs (top : List TRow) : Exports :=
  let ms := sortBy exportLe (top.map toMRow)
  let keyed := ms.map fun r =>
    (r.decision, if r.qc_flags = "" then "clean" else "has_flags")
  let ks := sortBy
    (fun a b => a.1 < b.1 || (a.1 = b.1 && (a.2 < b.2 || a.2 = b.2)))
    keyed.dedup
  { matches_decisions := ms
    matched := ms.filter fun r => r.decision = "Matched"
    needs_review := ms.filter fun r => r.decision = "Needs Review"
    unmatched := ms.filter fun r => r.decision = "Unmatched"
    qc_summary := ks.map fun k => (k.1, k.2, keyed.count k) }

/-- Source `run_pipeline`: end-to-end run — engineer features, score, select and
label; returns the labelled top table together with the exported tables.
`today` is the wall-clock timestamp the run reads once. -/
def run_pipeline (today : Int) (rows : List Row) (weights : Weights)
    (thresholds : Thresholds) : Except Unit (List TRow × Exports) :=
  match engineer_features today rows with
  | Except.error e => Except.error e
  | Except.ok f =>
    let s := score_candidates f weights
    let top := pick_top_and_label s thresholds
    Except.ok (top, export_outputs top)

/-- Numeric rank of a decision label: Matched > Needs Review > Unmatched. -/
def tier (d : String) : Nat :=
  if d = "Matched" then 2 else if d = "Needs Review" then 1 else 0

/-- A raw pair row with the given grouping key and every other field
missing (all-NaN row), used as base of the concrete test rows below. -/
def mkRow (k : String) : Row where
  input_row_key := k
  input_company_name := none
  company_name := none
  input_main_country_code := none
  main_country_code := none
  input_main_city := none
  main_city := none
  website_url := none
  last_updated_at := none
  main_postcode := none
  main_street := none
  linkedin_url := none
  facebook_url := none
  twitter_url := none
  youtube_url := none
  instagram_url := none
  tiktok_url := none
  company_type := none
  veridion_id := none

/-- A scored row with the given key, name similarity and match score and
neutral values everywhere else. -/
def mkSRow (k : String) (ns ms : ℚ) : SRow :=
  { mkRow k with
    name_similarity := ns
    country_match := 0
    city_match := 0
    has_website := 0
    days_since_update := none
    freshness := 0.3
    match_score := ms }

/-- The worked scoring example of the specification: `name_similarity=0.92`,
`country_match=1`, `city_match=1`, `has_website=1`, `freshness=1.0`. -/
def exampleFRow : FRow :=
  { mkRow "k1" with
    name_similarity := 0.92
    country_match := 1
    city_match := 1
    has_website := 1
    days_since_update := some 100
    freshness := 1.0 }

/-- A concrete score table with an exact tie inside group `k1` (two pairs
scoring 0.81) and a second group `k2`. -/
def tieRows : List SRow :=
  [mkSRow "k1" 0.8 0.81, mkSRow "k1" 0.9 0.81, mkSRow "k2" 0.7 0.5]

/-- The worked QC example of the specification: postcode and street blank,
no website, all social fields blank, company type present. -/
def qcExample : LRow :=
  { mkRow "k1" with
    main_postcode := some ""
    main_street := some "  "
    company_type := some "LLC"
    name_similarity := 0.9
    country_match := 0
    city_match := 0
    has_website := 0
    days_since_update := none
    freshness := 0.3
    match_score := 0.5
    decision := "Unmatched" }

/-- A raw input row with a parseable offset-aware last-update timestamp
(trailing `Z`), used to exercise the run-time dependence of the pipeline. -/
def pipeRow : Row :=
  { mkRow "k1" with last_updated_at := some "2019-01-01T00:00:00Z" }

/-- A raw input row whose last-update timestamp parses offset-naive (a bare
date): the source raises an uncaught `TypeError` at the day-difference
subtraction for such a row, aborting the run. -/
def naivePipeRow : Row :=
  { mkRow "k1" with last_updated_at := some "2019-01-01" }

/-- The feature row that `featRow` produces from `pipeRow` at a run
timestamp giving day difference `days`. -/
def pipeFeat (days : Option Int) : FRow :=
  { pipeRow with
    name_similarity := sim none none
    country_match := country_match none none
    city_match := city_match none none
    has_website := has_website_of none
    days_since_update := days
    freshness := freshness_score days }

/-- The feature row that `featRow` produces from an all-missing row (every
optional field `NaN`). -/
def baseFeat (k : String) : FRow :=
  { mkRow k with
    name_similarity := sim none none
    country_match := country_match none none
    city_match := city_match none none
    has_website := has_website_of none
    days_since_update := none
    freshness := freshness_score none }

/-! Helper lemmas about the selection step. -/

/-- Characterisation of `topOf`: rank 1 within the group means every same-key
row scores strictly lower or ties at a position not before `i`. -/
theorem topOf_iff (rows : List SRow) (i : Nat) (p : SRow) :
    topOf rows i p = true ↔
      ∀ (j : ℕ) (q : SRow), rows[j]? = some q → q.input_row_key = p.input_row_key →
        q.match_score < p.match_score ∨ (q.match_score = p.match_score ∧ i ≤ j) := by
  unfold topOf
  rw [List.all_eq_true]
  constructor
  · intro h j q hq hkey
    have hj : j < rows.length := (List.getElem?_eq_some.mp hq).1
    have hmem := h j (List.mem_range.mpr hj)
    rw [hq] at hmem
    simp only at hmem
    rw [if_pos hkey] at hmem
    by_cases hlt : q.match_score < p.match_score
    · exact Or.inl hlt
    · rw [if_neg hlt] at hmem
      by_cases heq : q.match_score = p.match_score
      · rw [if_pos heq] at hmem
        exact Or.inr ⟨heq, Nat.le_of_ble_eq_true hmem⟩
      · rw [if_neg heq] at hmem
        exact absurd hmem (by simp)
  · intro h j hj
    rw [List.mem_range] at hj
    cases hq : rows[j]? with
    | none => simp
    | some q =>
      simp only
      by_cases hkey : q.input_row_key = p.input_row_key
      · rw [if_pos hkey]
        rcases h j q hq hkey with hlt | ⟨heq, hle⟩
        · rw [if_pos hlt]
        · rw [if_neg (by simp [heq]), if_pos heq]
          exact Nat.ble_eq_true_of_le hle
      · rw [if_neg hkey]

/-- At most one rank-1 row per group: two top positions with the same key
coincide. -/
theorem top_unique (rows : List SRow) (i j : Nat) (p q : SRow)
    (hi : rows[i]? = some p) (hj : rows[j]? = some q)
    (hti : topOf rows i p = true) (htj : topOf rows j q = true)
    (hkey : q.input_row_key = p.input_row_key) : i = j := by
  have h1 := (topOf_iff rows i p).mp hti j q hj hkey
  have h2 := (topOf_iff rows j q).mp htj i p hi hkey.symm
  rcases h1 with h1 | ⟨h1e, h1le⟩ <;> rcases h2 with h2 | ⟨h2e, h2le⟩
  · exact absurd h2 (by linarith)
  · exact absurd h1 (by linarith)
  · exact absurd h2 (by linarith)
  · omega

/-- Every key present in the table has a rank-1 row: the first position
attaining the group maximum of `match_score`. -/
theorem exists_top (rows : List SRow) (k : String)
    (hk : ∃ i : Nat, ∃ p, rows[i]? = some p ∧ p.input_row_key = k) :
    ∃ i : Nat, ∃ p, rows[i]? = some p ∧ p.input_row_key = k ∧ topOf rows i p = true ∧
      (∀ (j : ℕ) (q : SRow), rows[j]? = some q → q.input_row_key = k →
        q.match_score ≤ p.match_score ∧ (q.match_score = p.match_score → i ≤ j)) := by
  classical
  obtain ⟨i0, p0, hp0, hk0⟩ := hk
  set n := rows.length with hn
  set keyAt : Nat → Option String := fun i => (rows[i]?).map (fun r => r.input_row_key) with hkeyAt
  set scoreAt : Nat → ℚ := fun i => ((rows[i]?).map (fun r => r.match_score)).getD 0 with hscoreAt
  set G : Finset ℕ := (Finset.range n).filter (fun i => keyAt i = some k) with hG
  have hGmem : ∀ i, i ∈ G ↔ ∃ p, rows[i]? = some p ∧ p.input_row_key = k := by
    intro i
    simp only [hG, Finset.mem_filter, Finset.mem_range, hkeyAt]
    constructor
    · rintro ⟨hlt, hmap⟩
      cases hq : rows[i]? with
      | none => rw [hq] at hmap; simp at hmap
      | some q =>
        rw [hq] at hmap
        simp only [Option.map_some'] at hmap
        exact ⟨q, rfl, Option.some_injective _ hmap⟩
    · rintro ⟨p, hp, hpk⟩
      refine ⟨(List.getElem?_eq_some.mp hp).1, ?_⟩
      rw [hp]
      simp [hpk]
  have hGne : G.Nonempty := ⟨i0, (hGmem i0).mpr ⟨p0, hp0, hk0⟩⟩
  set M : ℚ := G.sup' hGne scoreAt with hM
  set T : Finset ℕ := G.filter (fun i => scoreAt i = M) with hT
  have hTne : T.Nonempty := by
    obtain ⟨b, hb, hbe⟩ := Finset.exists_mem_eq_sup' hGne scoreAt
    exact ⟨b, by simp [hT, hb, hbe.symm]⟩
  set i1 := T.min' hTne with hi1
  have hi1T : i1 ∈ T := Finset.min'_mem T hTne
  have hi1G : i1 ∈ G := (Finset.mem_filter.mp hi1T).1
  have hi1M : scoreAt i1 = M := (Finset.mem_filter.mp hi1T).2
  obtain ⟨p, hp, hpk⟩ := (hGmem i1).mp hi1G
  have hscorep : scoreAt i1 = p.match_score := by simp [hscoreAt, hp]
  have hub : ∀ (j : ℕ) (q : SRow), rows[j]? = some q → q.input_row_key = k →
      q.match_score ≤ p.match_score := by
    intro j q hq hqk
    have hjG : j ∈ G := (hGmem j).mpr ⟨q, hq, hqk⟩
    have hle : scoreAt j ≤ M := Finset.le_sup' scoreAt hjG
    have hsq : scoreAt j = q.match_score := by simp [hscoreAt, hq]
    rw [hsq, ← hi1M, hscorep] at hle
    exact hle
  have htie : ∀ (j : ℕ) (q : SRow), rows[j]? = some q → q.input_row_key = k →
      q.match_score = p.match_score → i1 ≤ j := by
    intro j q hq hqk hqe
    have hjG : j ∈ G := (hGmem j).mpr ⟨q, hq, hqk⟩
    have hjT : j ∈ T := by
      refine Finset.mem_filter.mpr ⟨hjG, ?_⟩
      have hsq : scoreAt j = q.match_score := by simp [hscoreAt, hq]
      rw [hsq, hqe, ← hscorep, hi1M]
    exact Finset.min'_le T j hjT
  refine ⟨i1, p, hp, hpk, ?_, fun j q hq hqk => ⟨hub j q hq hqk, htie j q hq hqk⟩⟩
  rw [topOf_iff]
  intro j q hq hqkey
  have hqk : q.input_row_key = k := by rw [hqkey, hpk]
  rcases lt_or_eq_of_le (hub j q hq hqk) with hlt | heq
  · exact Or.inl hlt
  · exact Or.inr ⟨heq, htie j q hq hqk heq⟩

/-- Labelling preserves the grouping key. -/
theorem labelRow_key (p : SRow) (t : Thresholds) :
    (labelRow p t).input_row_key = p.input_row_key := rfl

/-- Membership characterisation of the selection step. -/
theorem mem_pick_top (rows : List SRow) (t : Thresholds) (x : TRow) :
    x ∈ pick_top_and_label rows t ↔
      ∃ i : Nat, ∃ p, rows[i]? = some p ∧ topOf rows i p = true ∧ x = labelRow p t := by
  unfold pick_top_and_label
  rw [List.mem_filterMap]
  constructor
  · rintro ⟨i, hi, hfi⟩
    cases hq : rows[i]? with
    | none => rw [hq] at hfi; simp at hfi
    | some p =>
      rw [hq] at hfi
      simp only at hfi
      cases ht : topOf rows i p with
      | false => rw [ht] at hfi; simp at hfi
      | true =>
        rw [ht] at hfi
        simp only [if_true] at hfi
        exact ⟨i, p, hq, ht, (Option.some_inj.mp hfi).symm⟩
  · rintro ⟨i, p, hp, ht, rfl⟩
    refine ⟨i, List.mem_range.mpr (List.getElem?_eq_some.mp hp).1, ?_⟩
    rw [hp]
    simp [ht]

/-- The selected rows carry pairwise distinct keys. -/
theorem pick_top_keys_nodup (rows : List SRow) (t : Thresholds) :
    ((pick_top_and_label rows t).map (fun x => x.input_row_key)).Nodup := by
  unfold pick_top_and_label
  rw [List.map_filterMap]
  refine List.Nodup.filterMap ?_ (List.nodup_range _)
  intro a a' b hb hb'
  simp only [Option.mem_def] at hb hb'
  cases hq : rows[a]? with
  | none => rw [hq] at hb; simp at hb
  | some p =>
    cases hq' : rows[a']? with
    | none => rw [hq'] at hb'; simp at hb'
    | some p' =>
      rw [hq] at hb; rw [hq'] at hb'
      simp only at hb hb'
      cases ht : topOf rows a p with
      | false => rw [ht] at hb; simp at hb
      | true =>
        cases ht' : topOf rows a' p' with
        | false => rw [ht'] at hb'; simp at hb'
        | true =>
          rw [ht] at hb; rw [ht'] at hb'
          simp only [if_true, Option.map_some', Option.some_inj] at hb hb'
          have hkey : p'.input_row_key = p.input_row_key := by
            rw [← labelRow_key p t, ← labelRow_key p' t, hb, hb']
          exact top_unique rows a a' p p' hq hq' ht ht' hkey

/-- The selected keys are exactly the keys present in the input table. -/
theorem pick_top_keys_mem (rows : List SRow) (t : Thresholds) (k : String) :
    k ∈ (pick_top_and_label rows t).map (fun x => x.input_row_key) ↔
      k ∈ rows.map (fun r => r.input_row_key) := by
  constructor
  · intro h
    obtain ⟨x, hx, hxk⟩ := List.mem_map.mp h
    obtain ⟨i, p, hp, ht, rfl⟩ := (mem_pick_top rows t x).mp hx
    refine List.mem_map.mpr ⟨p, List.mem_iff_getElem?.mpr ⟨i, hp⟩, ?_⟩
    rw [← hxk, labelRow_key]
  · intro h
    obtain ⟨p, hpmem, hpk⟩ := List.mem_map.mp h
    obtain ⟨i, hp⟩ := List.mem_iff_getElem?.mp hpmem
    obtain ⟨i1, p1, hp1, hk1, ht1, _⟩ := exists_top rows k ⟨i, p, hp, hpk⟩
    refine List.mem_map.mpr ⟨labelRow p1 t, (mem_pick_top rows t _).mpr ⟨i1, p1, hp1, ht1, rfl⟩, ?_⟩
    rw [labelRow_key, hk1]

/-- The selection returns one row per distinct key of the input table. -/
theorem pick_top_length (rows : List SRow) (t : Thresholds) :
    (pick_top_and_label rows t).length = ((rows.map (fun r => r.input_row_key)).dedup).length := by
  have h1 : (pick_top_and_label rows t).length
      = ((pick_top_and_label rows t).map (fun x => x.input_row_key)).length :=
    (List.length_map _ _).symm
  rw [h1, ← List.toFinset_card_of_nodup (pick_top_keys_nodup rows t), ← List.card_toFinset]
  congr 1
  ext a
  simp only [List.mem_toFinset]
  exact pick_top_keys_mem rows t a

/-- Selection over a one-row table keeps that row. -/
theorem pick_top_singleton (p : SRow) (t : Thresholds) :
    pick_top_and_label [p] t = [labelRow p t] := by
  have ht : topOf [p] 0 p = true := by
    rw [topOf_iff]
    intro j q hq _
    have hj : j < 1 := (List.getElem?_eq_some.mp hq).1
    interval_cases j
    · simp only [List.getElem?_cons_zero, Option.some_inj] at hq
      exact Or.inr ⟨by rw [hq], le_refl 0⟩
  unfold pick_top_and_label
  have hr : List.range [p].length = [0] := rfl
  rw [hr]
  simp [ht]

/-- The QC flag list is the filter of the fixed flag-name list by each
trigger condition (hence the fixed evaluation order). -/
theorem qc_flags_list_eq_filter (r : LRow) :
    qc_flags_list r = allQcFlags.filter (qcTrigger r) := by
  unfold qc_flags_list allQcFlags qcTrigger
  cases h1 : blank r.main_postcode <;> cases h2 : blank r.main_street <;>
    cases h3 : noWebsiteNoSocial r <;> cases h4 : staleCond r <;>
    cases h5 : blank r.company_type <;>
    simp [List.filter, h1, h2, h3, h4, h5]

/-- The aware test timestamp (trailing `Z`) parses to day number 737059
with a UTC offset. -/
theorem parse_dt_awareTs :
    parse_dt (some "2019-01-01T00:00:00Z") = some ⟨737059, true⟩ := by
  have hc : codes "2019-01-01T00:00:00Z"
      = [50, 48, 49, 57, 45, 48, 49, 45, 48, 49, 84, 48, 48, 58, 48, 48, 58, 48, 48, 90] :=
    of_decide_eq_true (by with_unfolding_all rfl)
  simp [parse_dt, hc, replaceZ, isoDateTime, fourDigits, twoDigits, digitVal, validDate,
    daysInMonth, isLeap, daysOfDate, timeAware, validOffset]

/-- The bare-date test timestamp parses to day number 737059 offset-naive. -/
theorem parse_dt_naiveDate :
    parse_dt (some "2019-01-01") = some ⟨737059, false⟩ := by
  have hc : codes "2019-01-01" = [50, 48, 49, 57, 45, 48, 49, 45, 48, 49] :=
    of_decide_eq_true (by with_unfolding_all rfl)
  simp [parse_dt, hc, replaceZ, isoDateTime, fourDigits, twoDigits, digitVal, validDate,
    daysInMonth, isLeap, daysOfDate]

/-- Inverting a successful error-propagating map: every output element is the
successful image of some input element. -/
theorem mem_mapExcept {f : α → Except ε β} {l : List α} {bs : List β} {b : β}
    (h : mapExcept f l = Except.ok bs) (hb : b ∈ bs) : ∃ a ∈ l, f a = Except.ok b := by
  induction l generalizing bs with
  | nil =>
    unfold mapExcept at h
    cases h
    exact absurd hb (List.not_mem_nil b)
  | cons a as ih =>
    unfold mapExcept at h
    cases hfa : f a with
    | error e => rw [hfa] at h; exact absurd h (by simp)
    | ok b0 =>
      rw [hfa] at h
      simp only at h
      cases hrest : mapExcept f as with
      | error e => rw [hrest] at h; exact absurd h (by simp)
      | ok bs0 =>
        rw [hrest] at h
        simp only [Except.ok.injEq] at h
        subst h
        rcases List.mem_cons.mp hb with rfl | hmem
        · exact ⟨a, List.mem_cons_self a as, hfa⟩
        · obtain ⟨a1, ha1, hfa1⟩ := ih hrest hmem
          exact ⟨a1, List.mem_cons_of_mem a ha1, hfa1⟩

/-- Inverting a successful `featRow`: the produced row keeps the raw fields
and derives the match features by the stated functions. -/
theorem featRow_ok {today : Int} {r : Row} {f : FRow}
    (h : featRow today r = Except.ok f) :
    f.toRow = r
  ∧ f.country_match = country_match r.input_main_country_code r.main_country_code
  ∧ f.city_match = city_match r.input_main_city r.main_city := by
  unfold featRow at h
  cases hd : days_since_update_of today r.last_updated_at with
  | error e => rw [hd] at h; exact absurd h (by simp)
  | ok days =>
    rw [hd] at h
    simp only [Except.ok.injEq] at h
    subst h
    exact ⟨rfl, rfl, rfl⟩

/-! The claims. -/

/-- C1: `decide` evaluates an ordered rule list in which the first matching
rule wins: `name_similarity` below the hard floor (default 0.70) forces
Unmatched regardless of `match_score`; otherwise `match_score ≥ strong`
(default 0.75) gives Matched, else `match_score ≥ review` (default 0.60)
gives Needs Review, else Unmatched — each default applied only when that
threshold key is absent (the `getD` lookups). -/
theorem c1_decide_ordered_rules (r : SRow) (t : Thresholds) :
    (r.name_similarity < t.name_hard_floor.getD 0.70 → decide r t = "Unmatched")
  ∧ (t.name_hard_floor.getD 0.70 ≤ r.name_similarity →
      t.strong.getD 0.75 ≤ r.match_score → decide r t = "Matched")
  ∧ (t.name_hard_floor.getD 0.70 ≤ r.name_similarity →
      r.match_score < t.strong.getD 0.75 → t.review.getD 0.60 ≤ r.match_score →
      decide r t = "Needs Review")
  ∧ (t.name_hard_floor.getD 0.70 ≤ r.name_similarity →
      r.match_score < t.strong.getD 0.75 → r.match_score < t.review.getD 0.60 →
      decide r t = "Unmatched") := by
  unfold ErQc.decide
  refine ⟨?_, ?_, ?_, ?_⟩ <;> intros <;> dsimp only <;> split_ifs <;>
    first | rfl | linarith

/-- Witness for C1 at concrete rows and empty thresholds (all defaults):
the hard veto despite a high score, and the three score bands. -/
theorem c1_witness :
    decide (mkSRow "k" 0.65 0.90) {} = "Unmatched"
  ∧ decide (mkSRow "k" 0.92 0.952) {} = "Matched"
  ∧ decide (mkSRow "k" 0.80 0.70) {} = "Needs Review"
  ∧ decide (mkSRow "k" 0.80 0.50) {} = "Unmatched" :=
  ⟨(c1_decide_ordered_rules (mkSRow "k" 0.65 0.90) {}).1 (by norm_num [mkSRow]),
   (c1_decide_ordered_rules (mkSRow "k" 0.92 0.952) {}).2.1 (by norm_num [mkSRow])
     (by norm_num [mkSRow]),
   (c1_decide_ordered_rules (mkSRow "k" 0.80 0.70) {}).2.2.1 (by norm_num [mkSRow])
     (by norm_num [mkSRow]) (by norm_num [mkSRow]),
   (c1_decide_ordered_rules (mkSRow "k" 0.80 0.50) {}).2.2.2 (by norm_num [mkSRow])
     (by norm_num [mkSRow]) (by norm_num [mkSRow])⟩

/-- C2: `score_candidates` computes `match_score` as the weighted sum of the
five features, each weight looked up by name with defaults 0.6, 0.15, 0.1,
0.1, 0.05, with no normalization or clamping (a weight above 1 pushes the
score above 1); the worked example (0.92, 1, 1, 1, 1.0 under default
weights) scores 0.952 and is decided Matched. -/
theorem c2_score_weighted_sum :
    (∀ (rows : List FRow) (w : Weights),
      (score_candidates rows w).map (fun s => s.match_score)
        = rows.map (fun r =>
            w.name_similarity.getD 0.6 * r.name_similarity
              + w.country_match.getD 0.15 * (r.country_match : ℚ)
              + w.city_match.getD 0.1 * (r.city_match : ℚ)
              + w.freshness.getD 0.1 * r.freshness
              + w.has_website.getD 0.05 * (r.has_website : ℚ)))
  ∧ (score_candidates [exampleFRow] {}).map (fun s => s.match_score) = [0.952]
  ∧ (score_candidates [exampleFRow] {}).map (fun s => decide s {}) = ["Matched"]
  ∧ (∃ w : Weights, ∃ rows : List FRow, ∃ s : SRow,
      s ∈ score_candidates rows w ∧ 1 < s.match_score) := by
  refine ⟨?_, ?_, ?_, ?_⟩
  · intro rows w
    unfold score_candidates scoreRow
    rw [List.map_map]
    rfl
  · exact of_decide_eq_true (by with_unfolding_all rfl)
  · exact of_decide_eq_true (by with_unfolding_all rfl)
  · refine ⟨{ name_similarity := some 2 }, [exampleFRow],
      { exampleFRow with
        match_score := 2 * 0.92 + 0.15 * 1 + 0.1 * 1 + 0.1 * 1.0 + 0.05 * 1 }, ?_, ?_⟩
    · exact List.mem_singleton.mpr (of_decide_eq_true (by with_unfolding_all rfl))
    · norm_num

/-- C3: the selection step keeps exactly one pair per distinct
`input_row_key` that has at least one candidate pair — the number of
TopMatches equals the number of such distinct keys, the kept keys are
pairwise distinct and are exactly the keys present — and the kept pair of a
group scores at least every same-key pair, with exact ties resolved to the
pair earliest in original table order. -/
theorem c3_selection_per_group (rows : List SRow) (t : Thresholds) :
    (pick_top_and_label rows t).length = ((rows.map (fun r => r.input_row_key)).dedup).length
  ∧ ((pick_top_and_label rows t).map (fun x => x.input_row_key)).Nodup
  ∧ (∀ k : String, k ∈ (pick_top_and_label rows t).map (fun x => x.input_row_key) ↔
       k ∈ rows.map (fun r => r.input_row_key))
  ∧ (∀ x : TRow, x ∈ pick_top_and_label rows t →
       ∃ i : Nat, ∃ p : SRow, rows[i]? = some p ∧ x = labelRow p t ∧
         ∀ (j : ℕ) (q : SRow), rows[j]? = some q → q.input_row_key = p.input_row_key →
           q.match_score ≤ p.match_score ∧ (q.match_score = p.match_score → i ≤ j)) := by
  refine ⟨pick_top_length rows t, pick_top_keys_nodup rows t,
    fun k => pick_top_keys_mem rows t k, ?_⟩
  intro x hx
  obtain ⟨i, p, hp, ht, rfl⟩ := (mem_pick_top rows t x).mp hx
  refine ⟨i, p, hp, rfl, ?_⟩
  intro j q hq hkey
  rcases (topOf_iff rows i p).mp ht j q hq hkey with hlt | ⟨heq, hle⟩
  · exact ⟨le_of_lt hlt, fun he => absurd he (ne_of_lt hlt)⟩
  · exact ⟨le_of_eq heq, fun _ => hle⟩

/-- Witness for C3 on a concrete table with an exact 0.81–0.81 tie in group
`k1`: the count matches the distinct keys, key `k1` is kept, and the kept
pair of the tie is the one at position 0 (first in original order). -/
theorem c3_witness :
    ((pick_top_and_label tieRows {}).length
        = ((tieRows.map (fun r => r.input_row_key)).dedup).length)
  ∧ ("k1" ∈ (pick_top_and_label tieRows {}).map (fun x => x.input_row_key) ↔
       "k1" ∈ tieRows.map (fun r => r.input_row_key))
  ∧ (∃ i : Nat, ∃ p : SRow, tieRows[i]? = some p ∧
       labelRow (mkSRow "k1" 0.8 0.81) {} = labelRow p {} ∧
       ∀ (j : ℕ) (q : SRow), tieRows[j]? = some q → q.input_row_key = p.input_row_key →
         q.match_score ≤ p.match_score ∧ (q.match_score = p.match_score → i ≤ j)) :=
  ⟨(c3_selection_per_group tieRows {}).1,
   (c3_selection_per_group tieRows {}).2.2.1 "k1",
   (c3_selection_per_group tieRows {}).2.2.2 (labelRow (mkSRow "k1" 0.8 0.81) {})
     ((mem_pick_top tieRows {} _).mpr
       ⟨0, mkSRow "k1" 0.8 0.81, rfl, of_decide_eq_true (by with_unfolding_all rfl), rfl⟩)⟩

/-- C5: the freshness score is the piecewise function of
`days_since_update` — unknown maps to 0.3, `d ≤ 365` to 1.0, `d ≤ 730` to
0.7, `d ≤ 1095` to 0.5, larger values to 0.3 — with every bin boundary
inclusive on the lower-scoring side, so 365, 730 and 1095 fall into the
higher-scoring bin. -/
theorem c5_freshness_piecewise :
    freshness_score none = 0.3
  ∧ (∀ d : Int, d ≤ 365 → freshness_score (some d) = 1.0)
  ∧ (∀ d : Int, 365 < d → d ≤ 730 → freshness_score (some d) = 0.7)
  ∧ (∀ d : Int, 730 < d → d ≤ 1095 → freshness_score (some d) = 0.5)
  ∧ (∀ d : Int, 1095 < d → freshness_score (some d) = 0.3)
  ∧ freshness_score (some 365) = 1.0
  ∧ freshness_score (some 730) = 0.7
  ∧ freshness_score (some 1095) = 0.5 := by
  refine ⟨rfl, ?_, ?_, ?_, ?_, rfl, rfl, rfl⟩ <;>
    intros <;> unfold freshness_score <;> dsimp only <;> split_ifs <;>
    first | rfl | (exfalso; omega)

/-- Witness for C5 with one day count inside each of the four bins. -/
theorem c5_witness :
    freshness_score (some 100) = 1.0
  ∧ freshness_score (some 400) = 0.7
  ∧ freshness_score (some 800) = 0.5
  ∧ freshness_score (some 2000) = 0.3 :=
  ⟨c5_freshness_piecewise.2.1 100 (by norm_num),
   c5_freshness_piecewise.2.2.1 400 (by norm_num) (by norm_num),
   c5_freshness_piecewise.2.2.2.1 800 (by norm_num) (by norm_num),
   c5_freshness_piecewise.2.2.2.2.1 2000 (by norm_num)⟩

/-- C6: `country_match` is the raw equality test of the two country codes —
case- and whitespace-sensitive, missing values never equal — while
`city_match` is 1 only when the normalized input city is non-empty and
equals the normalized candidate city (so empty versus empty never matches);
`engineer_features` preserves exactly this raw-versus-normalized
asymmetry. -/
theorem c6_raw_country_normalized_city :
    (∀ a b : String, country_match (some a) (some b) = if a = b then 1 else 0)
  ∧ (∀ v : Option String, country_match v none = 0)
  ∧ (∀ v : Option String, country_match none v = 0)
  ∧ country_match (some "ro") (some "RO") = 0
  ∧ norm (some "ro") = norm (some "RO")
  ∧ country_match (some "RO") (some "RO ") = 0
  ∧ (∀ a b : Option String, city_match a b = if norm a ≠ "" ∧ norm a = norm b then 1 else 0)
  ∧ city_match (some "") (some "") = 0
  ∧ city_match (some "  ") (some "") = 0
  ∧ city_match (some "Cluj") (some " cluj ") = 1
  ∧ (∀ (today : Int) (rows : List Row) (fs : List FRow) (f : FRow),
      engineer_features today rows = Except.ok fs → f ∈ fs →
      f.country_match = country_match f.input_main_country_code f.main_country_code
        ∧ f.city_match = city_match f.input_main_city f.main_city) := by
  refine ⟨fun a b => rfl, fun v => by cases v <;> rfl, fun v => by cases v <;> rfl,
    of_decide_eq_true (by with_unfolding_all rfl),
    of_decide_eq_true (by with_unfolding_all rfl),
    of_decide_eq_true (by with_unfolding_all rfl),
    ?_,
    of_decide_eq_true (by with_unfolding_all rfl),
    of_decide_eq_true (by with_unfolding_all rfl),
    of_decide_eq_true (by with_unfolding_all rfl),
    ?_⟩
  · intro a b
    by_cases h1 : norm a = "" <;> by_cases h2 : norm a = norm b <;>
      simp [city_match, h1, h2]
  · intro today rows fs f heng hf
    obtain ⟨r, -, hfr⟩ := mem_mapExcept heng hf
    obtain ⟨hraw, hcm, hcity⟩ := featRow_ok hfr
    exact ⟨by rw [hcm, hraw], by rw [hcity, hraw]⟩

/-- Witness for C6: the derived features of a concretely engineered row are
the stated raw-equality and normalized-equality tests. -/
theorem c6_witness :
    (baseFeat "k1").country_match
        = country_match (baseFeat "k1").input_main_country_code
            (baseFeat "k1").main_country_code
  ∧ (baseFeat "k1").city_match
        = city_match (baseFeat "k1").input_main_city (baseFeat "k1").main_city :=
  c6_raw_country_normalized_city.2.2.2.2.2.2.2.2.2.2 0 [mkRow "k1"] [baseFeat "k1"]
    (baseFeat "k1") rfl (List.mem_singleton.mpr rfl)

/-- C7: the QC flag list is exactly the triggered flags among the five flag
names in their fixed evaluation order (the filter of the fixed name list);
`stale_update_>2y` triggers exactly when `days_since_update` is known and
strictly greater than 730; the worked example (blank postcode and street,
no website, blank socials, company type present) yields exactly
`missing_postcode, missing_street, no_website_no_social` in that order. -/
theorem c7_qc_flags_order (r : LRow) :
    qc_flags_list r = allQcFlags.filter (qcTrigger r)
  ∧ ("stale_update_>2y" ∈ qc_flags_list r ↔
       ∃ d : Int, r.days_since_update = some d ∧ 730 < d)
  ∧ qc_flags_list qcExample = ["missing_postcode", "missing_street", "no_website_no_social"]
  ∧ qc_flags_row qcExample = "missing_postcode, missing_street, no_website_no_social" := by
  refine ⟨qc_flags_list_eq_filter r, ?_, of_decide_eq_true (by with_unfolding_all rfl),
    of_decide_eq_true (by with_unfolding_all rfl)⟩
  rw [qc_flags_list_eq_filter, List.mem_filter]
  unfold allQcFlags qcTrigger staleCond
  cases hd : r.days_since_update with
  | none => simp [hd]
  | some d => by_cases h : 730 < d <;> simp [hd, h]

set_option linter.unusedVariables false in
/-- C8: with `name_similarity` at or above the hard floor, the decision is
monotone in `match_score` — raising the score of an otherwise identical row
never lowers the decision in the order Matched > Needs Review >
Unmatched. -/
theorem c8_decision_monotone (t : Thresholds) (r : SRow) (ms : ℚ)
    (hfloor : t.name_hard_floor.getD 0.70 ≤ r.name_similarity)
    (hle : r.match_score ≤ ms) :
    tier (decide r t) ≤ tier (decide { r with match_score := ms } t) := by
  unfold ErQc.decide
  dsimp only
  split_ifs <;> simp [tier] <;> linarith

/-- Witness for C8: raising a concrete score from the review band to the
strong band does not lower the decision tier. -/
theorem c8_witness :
    tier (decide (mkSRow "k" 0.80 0.65) {}) ≤
      tier (decide { mkSRow "k" 0.80 0.65 with match_score := 0.80 } {}) :=
  c8_decision_monotone {} (mkSRow "k" 0.80 0.65) 0.80
    (by norm_num [mkSRow]) (by norm_num [mkSRow])

/-- C9: timestamp parsing returns null on missing or empty input and on any
parse failure, never raising to the caller (the total `Option` result);
every literal `Z` is first rewritten to the `+00:00` offset text before
parsing, and a trailing-Z timestamp parses successfully as an offset-aware
value; a failed or empty parse degrades into the unknown `days_since_update`
sentinel — never into the error path — which the freshness rule consumes as
the 0.3 bin. -/
theorem c9_parse_failure_degrades :
    parse_dt none = none
  ∧ parse_dt (some "") = none
  ∧ (∀ s : String, s ≠ "" → parse_dt (some s) = isoDateTime (replaceZ (codes s)))
  ∧ (∀ s : String, isoDateTime (replaceZ (codes s)) = none → parse_dt (some s) = none)
  ∧ (∀ cs : List Nat, replaceZ (90 :: cs) = 43 :: 48 :: 48 :: 58 :: 48 :: 48 :: replaceZ cs)
  ∧ (∀ (c : Nat) (cs : List Nat), c ≠ 90 → replaceZ (c :: cs) = c :: replaceZ cs)
  ∧ (∀ (today : Int) (v : Option String), parse_dt v = none →
      days_since_update_of today v = Except.ok none
        ∧ (days_since_update_of today v).map freshness_score = Except.ok 0.3)
  ∧ parse_dt (some "2020-01-01T00:00:00Z") = some ⟨737424, true⟩ := by
  refine ⟨rfl, rfl, ?_, ?_, fun cs => by simp [replaceZ], ?_, ?_, ?_⟩
  · intro s hs
    unfold parse_dt
    dsimp only
    rw [if_neg hs]
  · intro s h
    by_cases hs : s = "" <;> simp [parse_dt, hs, h]
  · intro c cs hc
    simp [replaceZ, hc]
  · intro today v hv
    unfold days_since_update_of
    rw [hv]
    exact ⟨rfl, rfl⟩
  · have hc : codes "2020-01-01T00:00:00Z"
        = [50, 48, 50, 48, 45, 48, 49, 45, 48, 49, 84, 48, 48, 58, 48, 48, 58, 48, 48, 90] :=
      of_decide_eq_true (by with_unfolding_all rfl)
    simp [parse_dt, hc, replaceZ, isoDateTime, fourDigits, twoDigits, digitVal, validDate,
      daysInMonth, isLeap, daysOfDate, timeAware, validOffset]

/-- Witness for C9: the unparseable string `not-a-date` silently degrades to
a null parse, an unknown day count (not an error), and the 0.3 freshness
bin. -/
theorem c9_witness :
    parse_dt (some "not-a-date") = none
  ∧ days_since_update_of 737159 (some "not-a-date") = Except.ok none
  ∧ (days_since_update_of 737159 (some "not-a-date")).map freshness_score
      = Except.ok 0.3 := by
  have hc : codes "not-a-date" = [110, 111, 116, 45, 97, 45, 100, 97, 116, 101] :=
    of_decide_eq_true (by with_unfolding_all rfl)
  have hfail : isoDateTime (replaceZ (codes "not-a-date")) = none := by
    simp [hc, replaceZ, isoDateTime, fourDigits, twoDigits, digitVal]
  have hnone : parse_dt (some "not-a-date") = none :=
    c9_parse_failure_degrades.2.2.2.1 "not-a-date" hfail
  exact ⟨hnone,
    (c9_parse_failure_degrades.2.2.2.2.2.2.1 737159 (some "not-a-date") hnone).1,
    (c9_parse_failure_degrades.2.2.2.2.2.2.1 737159 (some "not-a-date") hnone).2⟩

/-- C10: the QC flag computation never reads `match_score` or `decision` —
two labelled rows that agree on all raw fields and derived features (their
underlying `FRow`) but differ arbitrarily in score and decision receive
identical flag lists and flag strings. -/
theorem c10_qc_independent_of_score (l1 l2 : LRow)
    (h : l1.toSRow.toFRow = l2.toSRow.toFRow) :
    qc_flags_list l1 = qc_flags_list l2 ∧ qc_flags_row l1 = qc_flags_row l2 := by
  have hlist : qc_flags_list l1 = qc_flags_list l2 := by
    unfold qc_flags_list noWebsiteNoSocial staleCond
    rw [h]
  refine ⟨hlist, ?_⟩
  unfold qc_flags_row
  rw [hlist]

/-- Witness for C10: changing a concrete row to score 0.99 and decision
Matched leaves its QC flags untouched. -/
theorem c10_witness :
    qc_flags_list qcExample
        = qc_flags_list { qcExample with match_score := 0.99, decision := "Matched" }
  ∧ qc_flags_row qcExample
        = qc_flags_row { qcExample with match_score := 0.99, decision := "Matched" } :=
  c10_qc_independent_of_score qcExample
    { qcExample with match_score := 0.99, decision := "Matched" } rfl

/-- C4 as stated is refuted: the pipeline is not a pure function of the
input table and configuration alone, because feature engineering reads the
wall clock once per run; two runs on the identical one-row table (whose
timestamp is offset-aware, so the day subtraction succeeds) and identical
(empty, all-defaults) configuration, 1900 days apart, disagree on the
freshness column of the returned top table and of the exported
`matches_decisions` table.  A row with an offset-naive timestamp instead
aborts the run (the uncaught `TypeError` of aware-minus-naive). -/
theorem c4_counterexample :
    (run_pipeline 737159 [pipeRow] {} {}).map (fun z => z.1.map (fun r => r.freshness))
        = Except.ok [1.0]
  ∧ (run_pipeline 739059 [pipeRow] {} {}).map (fun z => z.1.map (fun r => r.freshness))
        = Except.ok [0.3]
  ∧ run_pipeline 737159 [pipeRow] {} {} ≠ run_pipeline 739059 [pipeRow] {} {}
  ∧ (run_pipeline 737159 [pipeRow] {} {}).map
        (fun z => z.2.matches_decisions.map (fun m => m.freshness))
      ≠ (run_pipeline 739059 [pipeRow] {} {}).map
        (fun z => z.2.matches_decisions.map (fun m => m.freshness))
  ∧ run_pipeline 737159 [naivePipeRow] {} {} = Except.error () := by
  have hlu : pipeRow.last_updated_at = some "2019-01-01T00:00:00Z" := rfl
  have hluN : naivePipeRow.last_updated_at = some "2019-01-01" := rfl
  have hday1 : days_since_update_of 737159 (some "2019-01-01T00:00:00Z")
      = Except.ok (some 100) := by
    simp [days_since_update_of, parse_dt_awareTs]
  have hday2 : days_since_update_of 739059 (some "2019-01-01T00:00:00Z")
      = Except.ok (some 2000) := by
    simp [days_since_update_of, parse_dt_awareTs]
  have hdayN : days_since_update_of 737159 (some "2019-01-01") = Except.error () := by
    simp [days_since_update_of, parse_dt_naiveDate]
  have hfeat1 : featRow 737159 pipeRow = Except.ok (pipeFeat (some 100)) := by
    unfold featRow
    rw [hlu, hday1]
    rfl
  have hfeat2 : featRow 739059 pipeRow = Except.ok (pipeFeat (some 2000)) := by
    unfold featRow
    rw [hlu, hday2]
    rfl
  have hfeatN : featRow 737159 naivePipeRow = Except.error () := by
    unfold featRow
    rw [hluN, hdayN]
  have heng1 : engineer_features 737159 [pipeRow] = Except.ok [pipeFeat (some 100)] := by
    simp [engineer_features, mapExcept, hfeat1]
  have heng2 : engineer_features 739059 [pipeRow] = Except.ok [pipeFeat (some 2000)] := by
    simp [engineer_features, mapExcept, hfeat2]
  have hengN : engineer_features 737159 [naivePipeRow] = Except.error () := by
    simp [engineer_features, mapExcept, hfeatN]
  have hrun1 : run_pipeline 737159 [pipeRow] {} {}
      = Except.ok (pick_top_and_label [scoreRow {} (pipeFeat (some 100))] {},
          export_outputs (pick_top_and_label [scoreRow {} (pipeFeat (some 100))] {})) := by
    unfold run_pipeline
    rw [heng1]
    rfl
  have hrun2 : run_pipeline 739059 [pipeRow] {} {}
      = Except.ok (pick_top_and_label [scoreRow {} (pipeFeat (some 2000))] {},
          export_outputs (pick_top_and_label [scoreRow {} (pipeFeat (some 2000))] {})) := by
    unfold run_pipeline
    rw [heng2]
    rfl
  have htop1 := pick_top_singleton (scoreRow {} (pipeFeat (some 100))) ({} : Thresholds)
  have htop2 := pick_top_singleton (scoreRow {} (pipeFeat (some 2000))) ({} : Thresholds)
  have hf1 : (run_pipeline 737159 [pipeRow] {} {}).map (fun z => z.1.map (fun r => r.freshness))
      = Except.ok [1.0] := by
    rw [hrun1, htop1]
    rfl
  have hf2 : (run_pipeline 739059 [pipeRow] {} {}).map (fun z => z.1.map (fun r => r.freshness))
      = Except.ok [0.3] := by
    rw [hrun2, htop2]
    rfl
  have hm1 : (run_pipeline 737159 [pipeRow] {} {}).map
      (fun z => z.2.matches_decisions.map (fun m => m.freshness)) = Except.ok [1.0] := by
    rw [hrun1, htop1]
    rfl
  have hm2 : (run_pipeline 739059 [pipeRow] {} {}).map
      (fun z => z.2.matches_decisions.map (fun m => m.freshness)) = Except.ok [0.3] := by
    rw [hrun2, htop2]
    rfl
  have hone : ¬((Except.ok [(1.0 : ℚ)] : Except Unit (List ℚ)) = Except.ok [0.3]) := by
    intro hq
    simp only [Except.ok.injEq, List.cons.injEq] at hq
    exact absurd hq.1 (by norm_num)
  refine ⟨hf1, hf2, ?_, ?_, ?_⟩
  · intro h
    have := congrArg (Except.map (fun z : List TRow × Exports =>
      z.1.map (fun r => r.freshness))) h
    rw [hf1, hf2] at this
    exact hone this
  · intro h
    rw [hm1, hm2] at h
    exact hone h
  · unfold run_pipeline
    rw [hengN]

/-- C4 amended: the pipeline is a pure function of the input table, the
configuration, and the single run timestamp — two runs agreeing on all
three produce identical outputs (top table and all exported tables). -/
theorem c4_deterministic_given_time (today1 today2 : Int) (rows1 rows2 : List Row)
    (w1 w2 : Weights) (t1 t2 : Thresholds)
    (htoday : today1 = today2) (hrows : rows1 = rows2) (hw : w1 = w2) (ht : t1 = t2) :
    run_pipeline today1 rows1 w1 t1 = run_pipeline today2 rows2 w2 t2 := by
  subst htoday hrows hw ht
  rfl

/-- Witness for the amended C4 at a concrete run. -/
theorem c4_witness :
    run_pipeline 737159 [pipeRow] {} {} = run_pipeline 737159 [pipeRow] {} {} :=
  c4_deterministic_given_time 737159 737159 [pipeRow] [pipeRow] {} {} {} {} rfl rfl rfl rfl

end ErQc
